import Mathlib

/-!
Shallow embedding of the luminance rendering pipeline (src/src/pipeline.rs)
and of the GPU render state value type (src/luminance/src/render_state.rs).

Device calls (OpenGL calls) issued by the pipeline code are modelled as an
explicit event trace: every gl call made by pipeline.rs becomes one `Event`,
and every invocation of an `update_program` callback becomes an
`Event.updateCall` recording the callback's identity and the program handle
it receives.  The callbacks themselves are opaque in the source (boxed
`Fn(&Program)` closures), so a `Pipe` stores an identifying label in place
of the closure; the trace records when each callback runs and with which
argument, which is all the pipeline code itself determines.
-/

namespace LuminanceGL

/-! OpenGL enumeration constants used by pipeline.rs, with their standard
numeric values from the OpenGL headers. -/

namespace gl

def FRAMEBUFFER : Nat := 0x8D40

def COLOR_BUFFER_BIT : Nat := 0x4000

def DEPTH_BUFFER_BIT : Nat := 0x0100

def TEXTURE0 : Nat := 0x84C0

def UNIFORM_BUFFER : Nat := 0x8A11

def BLEND : Nat := 0x0BE2

def DEPTH_TEST : Nat := 0x0B71

def FUNC_ADD : Nat := 0x8006

def MIN : Nat := 0x8007

def MAX : Nat := 0x8008

def FUNC_SUBTRACT : Nat := 0x800A

def FUNC_REVERSE_SUBTRACT : Nat := 0x800B

def ZERO : Nat := 0

def ONE : Nat := 1

def SRC_COLOR : Nat := 0x0300

def ONE_MINUS_SRC_COLOR : Nat := 0x0301

def SRC_ALPHA : Nat := 0x0302

def ONE_MINUS_SRC_ALPHA : Nat := 0x0303

def DST_ALPHA : Nat := 0x0304

def ONE_MINUS_DST_ALPHA : Nat := 0x0305

def DST_COLOR : Nat := 0x0306

def ONE_MINUS_DST_COLOR : Nat := 0x0307

def SRC_ALPHA_SATURATE : Nat := 0x0308

end gl

/-- An `f32` value carried through opaquely: pipeline.rs never computes on
floating-point values, it only forwards them to the device, so a float is
represented by its bit pattern. -/
structure F32 where
  bits : Nat
deriving DecidableEq

namespace Blending

/-- The blending equations of the `blending` module.  The exhaustive,
wildcard-free match of `opengl_blending_equation` in pipeline.rs lists
each variant exactly once, fixing this enumeration. -/
inductive Equation
  | Additive
  | Subtract
  | ReverseSubtract
  | Min
  | Max
deriving DecidableEq, Fintype

/-- The blending factors of the `blending` module.  The exhaustive,
wildcard-free match of `opengl_blending_factor` in pipeline.rs lists
each variant exactly once, fixing this enumeration. -/
inductive Factor
  | One
  | Zero
  | SrcColor
  | SrcColorComplement
  | DestColor
  | DestColorComplement
  | SrcAlpha
  | SrcAlphaComplement
  | DstAlpha
  | DstAlphaComplement
  | SrcAlphaSaturate
deriving DecidableEq, Fintype

end Blending

/-- pipeline.rs `opengl_blending_equation`: abstract equation to device
constant. -/
def opengl_blending_equation : Blending.Equation → Nat
  | Blending.Equation.Additive => gl.FUNC_ADD
  | Blending.Equation.Subtract => gl.FUNC_SUBTRACT
  | Blending.Equation.ReverseSubtract => gl.FUNC_REVERSE_SUBTRACT
  | Blending.Equation.Min => gl.MIN
  | Blending.Equation.Max => gl.MAX

/-- pipeline.rs `opengl_blending_factor`: abstract factor to device
constant. -/
def opengl_blending_factor : Blending.Factor → Nat
  | Blending.Factor.One => gl.ONE
  | Blending.Factor.Zero => gl.ZERO
  | Blending.Factor.SrcColor => gl.SRC_COLOR
  | Blending.Factor.SrcColorComplement => gl.ONE_MINUS_SRC_COLOR
  | Blending.Factor.DestColor => gl.DST_COLOR
  | Blending.Factor.DestColorComplement => gl.ONE_MINUS_DST_COLOR
  | Blending.Factor.SrcAlpha => gl.SRC_ALPHA
  | Blending.Factor.SrcAlphaComplement => gl.ONE_MINUS_SRC_ALPHA
  | Blending.Factor.DstAlpha => gl.DST_ALPHA
  | Blending.Factor.DstAlphaComplement => gl.ONE_MINUS_DST_ALPHA
  | Blending.Factor.SrcAlphaSaturate => gl.SRC_ALPHA_SATURATE

/-- A shader program, reduced to its bindable handle (external collaborator,
spec section 6). -/
structure Program where
  handle : Nat
deriving DecidableEq

/-- A texture, reduced to its binding target and handle (external
collaborator, spec section 6). -/
structure RawTexture where
  target : Nat
  handle : Nat
deriving DecidableEq

/-- A uniform buffer, reduced to its bindable handle (external collaborator,
spec section 6). -/
structure RawBuffer where
  handle : Nat
deriving DecidableEq

/-- A framebuffer, reduced to handle, width and height (external
collaborator, spec section 6). -/
structure Framebuffer where
  handle : Nat
  width : Nat
  height : Nat
deriving DecidableEq

/-- A tessellation (drawable), reduced to an identifier; its `render`
operation is recorded in the trace as an `Event.tessRender`. -/
structure Tess where
  id : Nat
deriving DecidableEq

/-- pipeline.rs `Pipe<T>`: pairs an `update_program` callback with the
wrapped value.  The callback, an opaque boxed closure in the source, is
represented by an identifying label; invoking it is recorded in the trace. -/
structure Pipe (T : Type) where
  update_program : Nat
  next : T
deriving DecidableEq

/-- pipeline.rs `RenderCommand`. -/
structure RenderCommand where
  blending : Option (Blending.Equation × Blending.Factor × Blending.Factor)
  depth_test : Bool
  tessellations : List (Pipe Tess)
  instances : Nat
  rasterization_size : Option F32
deriving DecidableEq

/-- pipeline.rs `ShadingCommand`. -/
structure ShadingCommand where
  program : Program
  render_commands : List (Pipe RenderCommand)
deriving DecidableEq

/-- pipeline.rs `Pipeline` (the framebuffer type parameters only constrain
the borrowed framebuffer's slots, which the execution path never reads
beyond handle/width/height). -/
structure Pipeline where
  framebuffer : Framebuffer
  clear_color : F32 × F32 × F32 × F32
  texture_set : List RawTexture
  buffer_set : List RawBuffer
  shading_commands : List (Pipe ShadingCommand)
deriving DecidableEq

/-- One observable step of pipeline execution: each constructor is one gl
call of pipeline.rs, except `updateCall`, which records the invocation of
an `update_program` callback with the program handle passed to it, and
`tessRender`, which records the drawable's `render(size, instances)` call. -/
inductive Event
  | bindFramebuffer (target : Nat) (handle : Nat)
  | viewport (x : Nat) (y : Nat) (width : Nat) (height : Nat)
  | clearColor (r : F32) (g : F32) (b : F32) (a : F32)
  | clear (mask : Nat)
  | activeTexture (unit : Nat)
  | bindTexture (target : Nat) (handle : Nat)
  | bindBufferBase (target : Nat) (index : Nat) (handle : Nat)
  | useProgram (handle : Nat)
  | updateCall (label : Nat) (program : Nat)
  | enable (cap : Nat)
  | disable (cap : Nat)
  | blendEquation (mode : Nat)
  | blendFunc (src : Nat) (dst : Nat)
  | tessRender (tess : Nat) (size : Option F32) (instances : Nat)
deriving DecidableEq

/-- Is this event a draw call (a drawable's `render` invocation)? -/
def Event.isDraw : Event → Bool
  | Event.tessRender _ _ _ => true
  | _ => false

/-- Is this event the invocation of an update callback? -/
def Event.isUpdate : Event → Bool
  | Event.updateCall _ _ => true
  | _ => false

/-- Is this event a program bind? -/
def Event.isUseProgram : Event → Bool
  | Event.useProgram _ => true
  | _ => false

/-- pipeline.rs `set_blending`, as the gl calls it performs. -/
def set_blending :
    Option (Blending.Equation × Blending.Factor × Blending.Factor) → List Event
  | some (equation, src_factor, dest_factor) =>
    [Event.enable gl.BLEND,
     Event.blendEquation (opengl_blending_equation equation),
     Event.blendFunc (opengl_blending_factor src_factor)
       (opengl_blending_factor dest_factor)]
  | none => [Event.disable gl.BLEND]

/-- pipeline.rs `set_depth_test`, as the gl calls it performs. -/
def set_depth_test (test : Bool) : List Event :=
  if test then [Event.enable gl.DEPTH_TEST] else [Event.disable gl.DEPTH_TEST]

/-- pipeline.rs `Pipeline::run_render_command`: invoke the render command's
update callback with the active program, apply blending and depth test,
then for each piped tessellation invoke its update callback and issue its
draw call. -/
def run_render_command (program : Program) (piped : Pipe RenderCommand) :
    List Event :=
  Event.updateCall piped.update_program program.handle ::
    (set_blending piped.next.blending ++ set_depth_test piped.next.depth_test ++
      piped.next.tessellations.flatMap fun piped_tess =>
        [Event.updateCall piped_tess.update_program program.handle,
         Event.tessRender piped_tess.next.id piped.next.rasterization_size
           piped.next.instances])

/-- pipeline.rs `Pipeline::run_shading_command`: bind the program, invoke
the shading command's update callback (the source calls `gl::UseProgram`
first, then the callback), then run the render commands in order. -/
def run_shading_command (piped : Pipe ShadingCommand) : List Event :=
  Event.useProgram piped.next.program.handle ::
    Event.updateCall piped.update_program piped.next.program.handle ::
      piped.next.render_commands.flatMap (run_render_command piped.next.program)

/-- pipeline.rs `Pipeline::run`: bind the framebuffer, set the viewport,
clear, bind the texture set and the buffer set by enumeration, then run
the shading commands in order. -/
def Pipeline.run (p : Pipeline) : List Event :=
  [Event.bindFramebuffer gl.FRAMEBUFFER p.framebuffer.handle,
   Event.viewport 0 0 p.framebuffer.width p.framebuffer.height,
   Event.clearColor p.clear_color.1 p.clear_color.2.1 p.clear_color.2.2.1
     p.clear_color.2.2.2,
   Event.clear (gl.COLOR_BUFFER_BIT ||| gl.DEPTH_BUFFER_BIT)]
  ++ (p.texture_set.enum.flatMap fun ut =>
       [Event.activeTexture (gl.TEXTURE0 + ut.1),
        Event.bindTexture ut.2.target ut.2.handle])
  ++ (p.buffer_set.enum.flatMap fun ib =>
       [Event.bindBufferBase gl.UNIFORM_BUFFER ib.1 ib.2.handle])
  ++ p.shading_commands.flatMap run_shading_command

/-- Successive executions of the same pipeline.  `Pipeline::run` takes
`&self` (an immutable borrow) and no field has interior mutability, so the
pipeline value seen by each successive call is the same; calling `run`
n times in sequence therefore concatenates n traces of that same value. -/
def runSeq (p : Pipeline) : Nat → List Event
  | 0 => []
  | n + 1 => p.run ++ runSeq p n

/-! Transcriptions of the spec's step-by-step description of `run`
(spec section 4.3), for comparison with the trace the source produces. -/

/-- Spec step 4: bind each texture to a distinct sequential texture unit
starting at the given unit, in list order. -/
def bindTextures (unit : Nat) : List RawTexture → List Event
  | [] => []
  | tex :: rest =>
    Event.activeTexture (gl.TEXTURE0 + unit) ::
      Event.bindTexture tex.target tex.handle :: bindTextures (unit + 1) rest

/-- Spec step 5: bind each buffer as a uniform-buffer binding point, index
counting up from the given index, in list order. -/
def bindBuffers (index : Nat) : List RawBuffer → List Event
  | [] => []
  | buf :: rest =>
    Event.bindBufferBase gl.UNIFORM_BUFFER index buf.handle ::
      bindBuffers (index + 1) rest

/-- Spec steps 1 to 5: bind the framebuffer, set the viewport to the full
extent at origin (0,0), clear color and depth with the clear color, bind
the texture set to units 0.., bind the buffer set to indices 0.. -/
def specSetup (p : Pipeline) : List Event :=
  [Event.bindFramebuffer gl.FRAMEBUFFER p.framebuffer.handle,
   Event.viewport 0 0 p.framebuffer.width p.framebuffer.height,
   Event.clearColor p.clear_color.1 p.clear_color.2.1 p.clear_color.2.2.1
     p.clear_color.2.2.2,
   Event.clear (gl.COLOR_BUFFER_BIT ||| gl.DEPTH_BUFFER_BIT)]
  ++ bindTextures 0 p.texture_set ++ bindBuffers 0 p.buffer_set

/-- Spec step 6.c.ii: if the blending triple is some, enable blending, set
the equation, set the factors; if none, disable blending. -/
def specBlendSteps :
    Option (Blending.Equation × Blending.Factor × Blending.Factor) → List Event
  | some esd =>
    [Event.enable gl.BLEND,
     Event.blendEquation (opengl_blending_equation esd.1),
     Event.blendFunc (opengl_blending_factor esd.2.1)
       (opengl_blending_factor esd.2.2)]
  | none => [Event.disable gl.BLEND]

/-- Spec step 6.c.iii: enable the depth test if the flag is set, else
disable it. -/
def specDepthSteps (flag : Bool) : List Event :=
  if flag then [Event.enable gl.DEPTH_TEST] else [Event.disable gl.DEPTH_TEST]

/-- Spec step 6 with the amended ordering of 6.a/6.b (program bind first,
then the shading-level update callback, as the source does): the events of
one shading command. -/
def specShadingSteps (sc : Pipe ShadingCommand) : List Event :=
  Event.useProgram sc.next.program.handle ::
    Event.updateCall sc.update_program sc.next.program.handle ::
      (sc.next.render_commands.flatMap fun rc =>
        Event.updateCall rc.update_program sc.next.program.handle ::
          (specBlendSteps rc.next.blending ++ specDepthSteps rc.next.depth_test ++
            rc.next.tessellations.flatMap fun t =>
              [Event.updateCall t.update_program sc.next.program.handle,
               Event.tessRender t.next.id rc.next.rasterization_size
                 rc.next.instances]))

/-- The draw calls the spec requires, in strict nested list order: shading
commands in order, within each its render commands in order, within each
its drawables in order. -/
def specDraws (p : Pipeline) : List Event :=
  p.shading_commands.flatMap fun sc =>
    sc.next.render_commands.flatMap fun rc =>
      rc.next.tessellations.map fun t =>
        Event.tessRender t.next.id rc.next.rasterization_size rc.next.instances

/-- The update-callback invocations the spec requires, each level's callback
exactly once, in nested order, each receiving its shading command's
program. -/
def specUpdates (p : Pipeline) : List Event :=
  p.shading_commands.flatMap fun sc =>
    Event.updateCall sc.update_program sc.next.program.handle ::
      sc.next.render_commands.flatMap fun rc =>
        Event.updateCall rc.update_program sc.next.program.handle ::
          rc.next.tessellations.map fun t =>
            Event.updateCall t.update_program sc.next.program.handle

/-- Every shading command has exactly m render commands and every render
command exactly k tessellations. -/
def uniformSizes (p : Pipeline) (m k : Nat) : Bool :=
  p.shading_commands.all fun sc =>
    sc.next.render_commands.length == m &&
      sc.next.render_commands.all fun rc => rc.next.tessellations.length == k

/-- Some adjacent pair of trace events satisfies the given relation. -/
def adjacentPair (tr : List Event) (f : Event → Event → Bool) : Bool :=
  (tr.zip tr.tail).any fun pq => f pq.1 pq.2

/-- The ordering the claim asserts at the shading level: each shading
command's update callback runs immediately before that command's program
bind. -/
def shadingUpdatesImmediatelyBeforeBind (p : Pipeline) : Bool :=
  p.shading_commands.all fun sc =>
    adjacentPair p.run fun a b =>
      decide (a = Event.updateCall sc.update_program sc.next.program.handle) &&
        decide (b = Event.useProgram sc.next.program.handle)

/-- The ordering the claim asserts inside `run_shading_command`: the shading
command's update callback is invoked strictly before the first program
bind of its trace. -/
def updateRunsBeforeBind (piped : Pipe ShadingCommand) : Bool :=
  decide
    ((run_shading_command piped).findIdx
        (fun e =>
          decide
            (e = Event.updateCall piped.update_program
              piped.next.program.handle)) <
      (run_shading_command piped).findIdx Event.isUseProgram)

/-! Concrete values used to exercise the theorems below on closed inputs. -/

/-- A texture with the TEXTURE_2D binding target. -/
def texEx : RawTexture := { target := 0x0DE1, handle := 11 }

def bufEx : RawBuffer := { handle := 21 }

def fbEx : Framebuffer := { handle := 1, width := 10, height := 20 }

def f32zero : F32 := { bits := 0 }

def progEx : Program := { handle := 7 }

/-- A piped tessellation with callback label 9 and drawable id 42. -/
def pipedTessEx : Pipe Tess := { update_program := 9, next := { id := 42 } }

/-- A piped render command with additive blending and depth test on. -/
def pipedRCEx : Pipe RenderCommand :=
  { update_program := 3
    next :=
      { blending :=
          some (Blending.Equation.Additive, Blending.Factor.One,
            Blending.Factor.Zero)
        depth_test := true
        tessellations := [pipedTessEx]
        instances := 1
        rasterization_size := none } }

/-- A piped render command with blending off and depth test off. -/
def pipedRCOff : Pipe RenderCommand :=
  { update_program := 6
    next :=
      { blending := none
        depth_test := false
        tessellations := [pipedTessEx]
        instances := 1
        rasterization_size := none } }

/-- A piped shading command with no render commands. -/
def pipedSCEmpty : Pipe ShadingCommand :=
  { update_program := 5, next := { program := progEx, render_commands := [] } }

/-- A piped shading command with one render command. -/
def pipedSCEx : Pipe ShadingCommand :=
  { update_program := 5
    next := { program := progEx, render_commands := [pipedRCOff] } }

/-- A pipeline with one shading command, one render command, one drawable. -/
def pOne : Pipeline :=
  { framebuffer := fbEx
    clear_color := (f32zero, f32zero, f32zero, f32zero)
    texture_set := []
    buffer_set := []
    shading_commands :=
      [{ update_program := 5
         next := { program := progEx, render_commands := [pipedRCEx] } }] }

/-- A pipeline with an empty shading-command list but nonempty texture and
buffer sets. -/
def pEmpty : Pipeline :=
  { framebuffer := fbEx
    clear_color := (f32zero, f32zero, f32zero, f32zero)
    texture_set := [texEx]
    buffer_set := [bufEx]
    shading_commands := [] }

/-- The events of `run_render_command progEx pipedRCEx` before its draw
call. -/
def preC4 : List Event :=
  [Event.updateCall 3 7, Event.enable gl.BLEND,
   Event.blendEquation gl.FUNC_ADD, Event.blendFunc gl.ONE gl.ZERO,
   Event.enable gl.DEPTH_TEST, Event.updateCall 9 7]

/-- The events of `run_shading_command pipedSCEx` before its drawable-level
update callback. -/
def preC10 : List Event :=
  [Event.useProgram 7, Event.updateCall 5 7, Event.updateCall 6 7,
   Event.disable gl.BLEND, Event.disable gl.DEPTH_TEST]

/-- The fixed-function device state driven by the pipeline's gl calls,
together with the currently bound program. -/
structure DeviceState where
  blend : Bool
  blend_equation : Nat
  blend_src : Nat
  blend_dst : Nat
  depth_test : Bool
  current_program : Option Nat
deriving DecidableEq

/-- How a single traced gl call transforms the device state.  Events that
do not touch blending, depth-test or program-binding state (draws, update
callbacks, texture and buffer binds, clears) leave it unchanged. -/
def applyEvent (s : DeviceState) : Event → DeviceState
  | Event.enable cap =>
    if cap = gl.BLEND then { s with blend := true }
    else if cap = gl.DEPTH_TEST then { s with depth_test := true }
    else s
  | Event.disable cap =>
    if cap = gl.BLEND then { s with blend := false }
    else if cap = gl.DEPTH_TEST then { s with depth_test := false }
    else s
  | Event.blendEquation m => { s with blend_equation := m }
  | Event.blendFunc a b => { s with blend_src := a, blend_dst := b }
  | Event.useProgram h => { s with current_program := some h }
  | _ => s

/-- Fold a trace over the device state. -/
def applyTrace (s : DeviceState) (tr : List Event) : DeviceState :=
  tr.foldl applyEvent s

/-- The device's blending state matches a render command's blending field:
enabled with the translated equation and factors when the field is `some`,
disabled when it is `none`. -/
def blendConfigMatches
    (b : Option (Blending.Equation × Blending.Factor × Blending.Factor))
    (s : DeviceState) : Prop :=
  match b with
  | some esd =>
    s.blend = true ∧ s.blend_equation = opengl_blending_equation esd.1 ∧
      s.blend_src = opengl_blending_factor esd.2.1 ∧
      s.blend_dst = opengl_blending_factor esd.2.2
  | none => s.blend = false

/-- An initial device state with everything off and no program bound. -/
def devEx : DeviceState :=
  { blend := false
    blend_equation := 0
    blend_src := 0
    blend_dst := 0
    depth_test := false
    current_program := none }

end LuminanceGL

namespace LuminanceCore

/-- Modelled from the spec: the depth-test module's comparison function
(src/luminance/src/depth_test.rs is not under src/).  The spec only requires
an optional comparison function whose `Less` value is the default
(spec sections 3 and 8); the standard comparison functions are included so
the type has more than one inhabitant. -/
inductive DepthComparison
  | Never
  | Always
  | Equal
  | NotEqual
  | Less
  | LessOrEqual
  | Greater
  | GreaterOrEqual
deriving DecidableEq

/-- Modelled from the spec: the depth-test module's depth-write flag
(not under src/); the spec calls it an on/off flag that is never optional
(spec section 3). -/
inductive DepthWrite
  | On
  | Off
deriving DecidableEq

/-- Modelled from the spec: the blending module's `Blending` value type
(not under src/); render_state.rs never inspects it, so it is opaque here. -/
structure Blending where
  val : Nat
deriving DecidableEq

/-- Modelled from the spec: the blending module's `BlendingMode`
(not under src/).  The spec distinguishes the separate-RGB/alpha variant
produced by `set_blending_separate` from the value produced by the generic
`set_blending` conversion path (spec section 8), so the type has a combined
variant, the image of the generic conversion, and a separate variant
carrying the rgb and alpha configurations. -/
inductive BlendingMode
  | Combined (blending : Blending)
  | Separate (rgb : Blending) (alpha : Blending)
deriving DecidableEq

/-- Modelled from the spec: the `From<Blending> for BlendingMode` conversion
used by the generic `set_blending` path (`x.into()` in render_state.rs). -/
def Blending.intoMode (b : Blending) : BlendingMode :=
  BlendingMode.Combined b

/-- Modelled from the spec: the face-culling module's culling mode
(not under src/); render_state.rs never inspects it, so it is opaque here. -/
structure FaceCulling where
  val : Nat
deriving DecidableEq

/-- render_state.rs `RenderState`.  The Rust accessors `blending()`,
`depth_test()`, `depth_write()` and `face_culling()` return copies of the
corresponding private fields, so the field projections model them. -/
structure RenderState where
  blending : Option BlendingMode
  depth_test : Option DepthComparison
  depth_write : DepthWrite
  face_culling : Option FaceCulling
deriving DecidableEq

/-- render_state.rs `set_blending`: the generic `B: Into<Option<Blending>>`
parameter is taken here at the canonical instance `Option Blending`; each
carried `Blending` goes through the `Into<BlendingMode>` conversion. -/
def RenderState.set_blending (self : RenderState) (b : Option Blending) :
    RenderState :=
  { self with blending := b.map Blending.intoMode }

/-- render_state.rs `set_blending_separate`. -/
def RenderState.set_blending_separate (self : RenderState)
    (blending_rgb : Blending) (blending_alpha : Blending) : RenderState :=
  { self with
      blending := some (BlendingMode.Separate blending_rgb blending_alpha) }

/-- render_state.rs `set_depth_test` (generic parameter taken at the
canonical instance `Option DepthComparison`). -/
def RenderState.set_depth_test (self : RenderState)
    (d : Option DepthComparison) : RenderState :=
  { self with depth_test := d }

/-- render_state.rs `set_depth_write`. -/
def RenderState.set_depth_write (self : RenderState) (w : DepthWrite) :
    RenderState :=
  { self with depth_write := w }

/-- render_state.rs `set_face_culling` (generic parameter taken at the
canonical instance `Option FaceCulling`). -/
def RenderState.set_face_culling (self : RenderState)
    (f : Option FaceCulling) : RenderState :=
  { self with face_culling := f }

/-- render_state.rs `Default for RenderState`. -/
def RenderState.default : RenderState :=
  { blending := none
    depth_test := some DepthComparison.Less
    depth_write := DepthWrite.On
    face_culling := none }

/-- Discriminator for the separate-RGB/alpha blending-mode variant. -/
def BlendingMode.isSeparate : BlendingMode → Bool
  | BlendingMode.Separate _ _ => true
  | _ => false

end LuminanceCore

namespace LuminanceGL

/-- Every update-callback invocation in a trace region receives the given
program handle. -/
def updateArgOK (expected : Nat) : Event → Bool
  | Event.updateCall _ h => h == expected
  | _ => true

end LuminanceGL

namespace LuminanceGL

/-! Helper lemmas about the trace semantics. -/

theorem enumFrom_textures (l : List RawTexture) :
    ∀ n : Nat,
      ((List.enumFrom n l).flatMap fun ut =>
        [Event.activeTexture (gl.TEXTURE0 + ut.1),
         Event.bindTexture ut.2.target ut.2.handle]) = bindTextures n l := by
  induction l with
  | nil => intro n; rfl
  | cons t ts ih =>
    intro n
    simp [List.enumFrom_cons, List.flatMap_cons, bindTextures, ih]

theorem enumFrom_buffers (l : List RawBuffer) :
    ∀ n : Nat,
      ((List.enumFrom n l).flatMap fun ib =>
        [Event.bindBufferBase gl.UNIFORM_BUFFER ib.1 ib.2.handle]) =
        bindBuffers n l := by
  induction l with
  | nil => intro n; rfl
  | cons b bs ih =>
    intro n
    simp [List.enumFrom_cons, List.flatMap_cons, bindBuffers, ih]

theorem run_eq_setup_append (p : Pipeline) :
    p.run = specSetup p ++ p.shading_commands.flatMap run_shading_command := by
  show ([_, _, _, _] ++ _ ++ _ ++ _ : List Event) = _
  rw [show p.texture_set.enum = List.enumFrom 0 p.texture_set from rfl,
    show p.buffer_set.enum = List.enumFrom 0 p.buffer_set from rfl,
    enumFrom_textures, enumFrom_buffers]
  simp [specSetup, List.append_assoc]

theorem filter_isDraw_bindTextures (l : List RawTexture) :
    ∀ n, (bindTextures n l).filter Event.isDraw = [] := by
  induction l with
  | nil => intro n; rfl
  | cons t ts ih => intro n; simp [bindTextures, Event.isDraw, ih]

theorem filter_isDraw_bindBuffers (l : List RawBuffer) :
    ∀ n, (bindBuffers n l).filter Event.isDraw = [] := by
  induction l with
  | nil => intro n; rfl
  | cons b bs ih => intro n; simp [bindBuffers, Event.isDraw, ih]

theorem filter_isDraw_specSetup (p : Pipeline) :
    (specSetup p).filter Event.isDraw = [] := by
  simp [specSetup, List.filter_append, Event.isDraw,
    filter_isDraw_bindTextures, filter_isDraw_bindBuffers]

theorem filter_isUpdate_bindTextures (l : List RawTexture) :
    ∀ n, (bindTextures n l).filter Event.isUpdate = [] := by
  induction l with
  | nil => intro n; rfl
  | cons t ts ih => intro n; simp [bindTextures, Event.isUpdate, ih]

theorem filter_isUpdate_bindBuffers (l : List RawBuffer) :
    ∀ n, (bindBuffers n l).filter Event.isUpdate = [] := by
  induction l with
  | nil => intro n; rfl
  | cons b bs ih => intro n; simp [bindBuffers, Event.isUpdate, ih]

theorem filter_isUpdate_specSetup (p : Pipeline) :
    (specSetup p).filter Event.isUpdate = [] := by
  simp [specSetup, List.filter_append, Event.isUpdate,
    filter_isUpdate_bindTextures, filter_isUpdate_bindBuffers]

/-- C3: `run` unconditionally performs the setup in order — bind the
framebuffer, set the viewport to the framebuffer's full extent at origin
(0,0), clear color and depth with the clear color, bind the i-th texture to
texture unit i in list order, bind the i-th buffer to uniform-buffer index i
in list order — before any shading command is processed; with an empty
shading-command list the trace is exactly that setup and contains zero draw
calls. -/
theorem C3_setup_before_shading (p : Pipeline) :
    p.run = specSetup p ++ p.shading_commands.flatMap run_shading_command ∧
      (p.shading_commands = [] →
        p.run = specSetup p ∧ (p.run).countP Event.isDraw = 0) := by
  refine ⟨run_eq_setup_append p, fun h => ?_⟩
  have h2 : p.run = specSetup p := by
    rw [run_eq_setup_append p, h]
    simp
  refine ⟨h2, ?_⟩
  rw [h2, List.countP_eq_length_filter, filter_isDraw_specSetup]
  rfl

/-- C3 witness: on the concrete pipeline with an empty shading-command list
the trace is exactly the setup and has zero draw calls. -/
theorem C3_setup_before_shading_witness :
    pEmpty.shading_commands = [] ∧
      (pEmpty.run = specSetup pEmpty ∧
        (pEmpty.run).countP Event.isDraw = 0) :=
  ⟨rfl, (C3_setup_before_shading pEmpty).2 rfl⟩

/-- C2 counterexample: on a shading command with no render commands the
source first calls gl UseProgram and only then invokes the shading-level
update callback, so the callback does not run strictly before the first
program bind, contrary to the claim's step ordering. -/
theorem C2_counterexample_bind_precedes_update :
    run_shading_command pipedSCEmpty =
      [Event.useProgram 7, Event.updateCall 5 7] ∧
      updateRunsBeforeBind pipedSCEmpty = false := by decide

/-- C2 (amended): for every shading command processed by `run`, the
ShadingCommand's program is made the active program first, and immediately
afterwards the shading command's update callback is invoked with that
now-current program. -/
theorem C2_bind_then_update (piped : Pipe ShadingCommand) :
    ∃ rest,
      run_shading_command piped =
        Event.useProgram piped.next.program.handle ::
          Event.updateCall piped.update_program piped.next.program.handle ::
            rest :=
  ⟨_, rfl⟩

/-- C5 counterexample: the blending-factor enumeration fixed by the
exhaustive match of `opengl_blending_factor` has eleven variants, not the
ten the claim counts. -/
theorem C5_counterexample_factor_count :
    Fintype.card Blending.Factor = 11 ∧
      ¬(Fintype.card Blending.Factor = 10) := by decide

/-- C5 (amended): the two translation functions are total over their
enumerations (five equations, eleven factors) with no fallback branch, and
injective: the five equation images are pairwise distinct and the eleven
factor images are pairwise distinct. -/
theorem C5_translations_total_injective :
    Fintype.card Blending.Equation = 5 ∧ Fintype.card Blending.Factor = 11 ∧
      (Finset.image opengl_blending_equation Finset.univ).card = 5 ∧
      (Finset.image opengl_blending_factor Finset.univ).card = 11 := by decide

/-- C9: `run` borrows the pipeline immutably and no field of the pipeline
has interior mutability, so it is modelled as a pure function of the
pipeline value; executing the same pipeline n times in sequence yields n
copies of one and the same device-call trace — re-runnable and
deterministic, never consumed. -/
theorem C9_run_rerunnable (p : Pipeline) (n : Nat) :
    runSeq p n = (List.replicate n p.run).flatten := by
  induction n with
  | zero => rfl
  | succ k ih => simp [runSeq, List.replicate_succ, ih]

end LuminanceGL

namespace LuminanceCore

/-- C6: every RenderState mutator returns a state whose mutated field reads
back as the set value (after the Into conversion for the optional fields)
and whose three other fields equal those of the original state; the
original state value itself is a pure value, never mutated in place. -/
theorem C6_mutators_set_exactly_one_field (s : RenderState)
    (b : Option Blending) (d : Option DepthComparison) (w : DepthWrite)
    (f : Option FaceCulling) :
    ((s.set_blending b).blending = b.map Blending.intoMode ∧
      (s.set_blending b).depth_test = s.depth_test ∧
      (s.set_blending b).depth_write = s.depth_write ∧
      (s.set_blending b).face_culling = s.face_culling) ∧
    ((s.set_depth_test d).depth_test = d ∧
      (s.set_depth_test d).blending = s.blending ∧
      (s.set_depth_test d).depth_write = s.depth_write ∧
      (s.set_depth_test d).face_culling = s.face_culling) ∧
    ((s.set_depth_write w).depth_write = w ∧
      (s.set_depth_write w).blending = s.blending ∧
      (s.set_depth_write w).depth_test = s.depth_test ∧
      (s.set_depth_write w).face_culling = s.face_culling) ∧
    ((s.set_face_culling f).face_culling = f ∧
      (s.set_face_culling f).blending = s.blending ∧
      (s.set_face_culling f).depth_test = s.depth_test ∧
      (s.set_face_culling f).depth_write = s.depth_write) :=
  ⟨⟨rfl, rfl, rfl, rfl⟩, ⟨rfl, rfl, rfl, rfl⟩, ⟨rfl, rfl, rfl, rfl⟩,
    ⟨rfl, rfl, rfl, rfl⟩⟩

/-- C7: the default RenderState has blending none, depth test Some(Less),
depth write On and face culling none. -/
theorem C7_default_render_state :
    RenderState.default.blending = none ∧
      RenderState.default.depth_test = some DepthComparison.Less ∧
      RenderState.default.depth_write = DepthWrite.On ∧
      RenderState.default.face_culling = none :=
  ⟨rfl, rfl, rfl, rfl⟩

/-- C8: `set_blending_separate rgb alpha` followed by the blending accessor
yields exactly the separate-mode value carrying rgb and alpha, while the
generic `set_blending` conversion path never produces a separate-mode
value. -/
theorem C8_separate_blending (s : RenderState) (rgb alpha : Blending) :
    (s.set_blending_separate rgb alpha).blending =
      some (BlendingMode.Separate rgb alpha) ∧
      ∀ ob : Option Blending,
        (s.set_blending ob).blending.map BlendingMode.isSeparate =
          ob.map fun _ => false := by
  refine ⟨rfl, fun ob => ?_⟩
  cases ob <;> rfl

end LuminanceCore

namespace LuminanceGL

/-! Pointwise agreement between the source trace and the spec transcription. -/

theorem set_blending_eq_spec
    (b : Option (Blending.Equation × Blending.Factor × Blending.Factor)) :
    set_blending b = specBlendSteps b := by
  cases b with
  | none => rfl
  | some esd => obtain ⟨e1, sf, df⟩ := esd; rfl

theorem set_depth_test_eq_spec (t : Bool) :
    set_depth_test t = specDepthSteps t := rfl

theorem rrc_eq_spec (prog : Program) :
    run_render_command prog = fun piped =>
      Event.updateCall piped.update_program prog.handle ::
        (specBlendSteps piped.next.blending ++
          specDepthSteps piped.next.depth_test ++
          piped.next.tessellations.flatMap fun t =>
            [Event.updateCall t.update_program prog.handle,
             Event.tessRender t.next.id piped.next.rasterization_size
               piped.next.instances]) := by
  funext piped
  unfold run_render_command
  rw [set_blending_eq_spec, set_depth_test_eq_spec]

theorem rsc_eq_spec (piped : Pipe ShadingCommand) :
    run_shading_command piped = specShadingSteps piped := by
  unfold run_shading_command specShadingSteps
  rw [rrc_eq_spec]

/-! Projections of the trace to its draw calls and its update invocations. -/

theorem filter_isDraw_set_blending
    (b : Option (Blending.Equation × Blending.Factor × Blending.Factor)) :
    (set_blending b).filter Event.isDraw = [] := by
  cases b with
  | none => rfl
  | some esd => obtain ⟨e1, sf, df⟩ := esd; rfl

theorem filter_isDraw_set_depth (t : Bool) :
    (set_depth_test t).filter Event.isDraw = [] := by
  cases t <;> rfl

theorem filter_isUpdate_set_blending
    (b : Option (Blending.Equation × Blending.Factor × Blending.Factor)) :
    (set_blending b).filter Event.isUpdate = [] := by
  cases b with
  | none => rfl
  | some esd => obtain ⟨e1, sf, df⟩ := esd; rfl

theorem filter_isUpdate_set_depth (t : Bool) :
    (set_depth_test t).filter Event.isUpdate = [] := by
  cases t <;> rfl

theorem filter_isDraw_tessBlock (prog : Program) (rs : Option F32)
    (inst : Nat) (l : List (Pipe Tess)) :
    ((l.flatMap fun t =>
        [Event.updateCall t.update_program prog.handle,
         Event.tessRender t.next.id rs inst]).filter Event.isDraw) =
      l.map fun t => Event.tessRender t.next.id rs inst := by
  induction l with
  | nil => rfl
  | cons t ts ih => simp [List.flatMap_cons, List.filter_append, Event.isDraw, ih]

theorem filter_isUpdate_tessBlock (prog : Program) (rs : Option F32)
    (inst : Nat) (l : List (Pipe Tess)) :
    ((l.flatMap fun t =>
        [Event.updateCall t.update_program prog.handle,
         Event.tessRender t.next.id rs inst]).filter Event.isUpdate) =
      l.map fun t => Event.updateCall t.update_program prog.handle := by
  induction l with
  | nil => rfl
  | cons t ts ih =>
    simp [List.flatMap_cons, List.filter_append, Event.isUpdate, ih]

theorem filter_isDraw_run_render (prog : Program) (piped : Pipe RenderCommand) :
    (run_render_command prog piped).filter Event.isDraw =
      piped.next.tessellations.map fun t =>
        Event.tessRender t.next.id piped.next.rasterization_size
          piped.next.instances := by
  simp [run_render_command, List.filter_cons, List.filter_append, Event.isDraw,
    filter_isDraw_set_blending, filter_isDraw_set_depth, filter_isDraw_tessBlock]

theorem filter_isUpdate_run_render (prog : Program)
    (piped : Pipe RenderCommand) :
    (run_render_command prog piped).filter Event.isUpdate =
      Event.updateCall piped.update_program prog.handle ::
        piped.next.tessellations.map fun t =>
          Event.updateCall t.update_program prog.handle := by
  simp [run_render_command, List.filter_cons, List.filter_append, Event.isUpdate,
    filter_isUpdate_set_blending, filter_isUpdate_set_depth,
    filter_isUpdate_tessBlock]

theorem filter_isDraw_run_shading (piped : Pipe ShadingCommand) :
    (run_shading_command piped).filter Event.isDraw =
      piped.next.render_commands.flatMap fun rc =>
        rc.next.tessellations.map fun t =>
          Event.tessRender t.next.id rc.next.rasterization_size
            rc.next.instances := by
  simp [run_shading_command, List.filter_cons, Event.isDraw,
    List.filter_flatMap, filter_isDraw_run_render]

theorem filter_isUpdate_run_shading (piped : Pipe ShadingCommand) :
    (run_shading_command piped).filter Event.isUpdate =
      Event.updateCall piped.update_program piped.next.program.handle ::
        piped.next.render_commands.flatMap fun rc =>
          Event.updateCall rc.update_program piped.next.program.handle ::
            rc.next.tessellations.map fun t =>
              Event.updateCall t.update_program piped.next.program.handle := by
  simp [run_shading_command, List.filter_cons, Event.isUpdate,
    List.filter_flatMap, filter_isUpdate_run_render]

theorem length_flatMap_const {α β : Type} (f : α → List β) (l : List α)
    (c : Nat) (h : ∀ a ∈ l, (f a).length = c) :
    (l.flatMap f).length = l.length * c := by
  induction l with
  | nil => simp
  | cons a as ih =>
    have ha := h a (List.mem_cons_self a as)
    have ih2 := ih fun x hx => h x (List.mem_cons_of_mem a hx)
    simp [List.flatMap_cons, List.length_append, ha, ih2]
    ring

theorem uniform_extract (p : Pipeline) (m k : Nat)
    (h : uniformSizes p m k = true) :
    ∀ sc ∈ p.shading_commands,
      sc.next.render_commands.length = m ∧
        ∀ rc ∈ sc.next.render_commands, rc.next.tessellations.length = k := by
  rw [uniformSizes, List.all_eq_true] at h
  intro sc hsc
  have h2 := h sc hsc
  simp only [Bool.and_eq_true, beq_iff_eq, List.all_eq_true] at h2
  exact h2

/-- C1 counterexample: the claim requires each level's update callback to
run immediately before its corresponding bind/draw step; at the shading
level the corresponding bind is the program bind, but on a concrete
1-shading-command, 1-render-command, 1-drawable pipeline no shading-level
update callback is adjacent-before its program bind in the trace (the
source binds the program first). -/
theorem C1_counterexample_shading_update_not_before_bind :
    pOne.shading_commands.length = 1 ∧
      shadingUpdatesImmediatelyBeforeBind pOne = false := by decide

/-- C1 (amended): for a pipeline with n shading commands, each with m
render commands, each with k drawables, `run` issues exactly n*m*k draw
calls in strict nested list order, invokes each level's update callback
exactly once in nested order, and the whole trace follows the spec's step
list with the render-command-level and drawable-level callbacks immediately
before their state-application/draw step and the shading-level callback
immediately after its program bind; no reordering or batching occurs. -/
theorem C1_nested_execution (p : Pipeline) (n m k : Nat)
    (hN : p.shading_commands.length = n)
    (hU : uniformSizes p m k = true) :
    p.run = specSetup p ++ p.shading_commands.flatMap specShadingSteps ∧
      (p.run).filter Event.isDraw = specDraws p ∧
      (p.run).filter Event.isUpdate = specUpdates p ∧
      ((p.run).filter Event.isDraw).length = n * m * k := by
  have hdraw : (p.run).filter Event.isDraw = specDraws p := by
    rw [run_eq_setup_append p, List.filter_append, filter_isDraw_specSetup,
      List.nil_append, List.filter_flatMap]
    simp only [filter_isDraw_run_shading]
    rfl
  have hupd : (p.run).filter Event.isUpdate = specUpdates p := by
    rw [run_eq_setup_append p, List.filter_append, filter_isUpdate_specSetup,
      List.nil_append, List.filter_flatMap]
    simp only [filter_isUpdate_run_shading]
    rfl
  have hrun : p.run = specSetup p ++ p.shading_commands.flatMap specShadingSteps := by
    rw [run_eq_setup_append p, funext rsc_eq_spec]
  have hlen : (specDraws p).length = n * m * k := by
    have hext := uniform_extract p m k hU
    have h1 : (specDraws p).length = p.shading_commands.length * (m * k) := by
      refine length_flatMap_const _ _ _ ?_
      intro sc hsc
      obtain ⟨hm, hk⟩ := hext sc hsc
      have h2 : ((sc.next.render_commands.flatMap fun rc =>
          rc.next.tessellations.map fun t =>
            Event.tessRender t.next.id rc.next.rasterization_size
              rc.next.instances).length) =
          sc.next.render_commands.length * k := by
        refine length_flatMap_const _ _ _ ?_
        intro rc hrc
        rw [List.length_map]
        exact hk rc hrc
      rw [h2, hm]
    rw [h1, hN, Nat.mul_assoc]
  refine ⟨hrun, hdraw, hupd, ?_⟩
  rw [hdraw]
  exact hlen

/-- C1 witness: the amended statement evaluated on the concrete
1-shading-command, 1-render-command, 1-drawable pipeline. -/
theorem C1_nested_execution_witness :
    pOne.shading_commands.length = 1 ∧ uniformSizes pOne 1 1 = true ∧
      (pOne.run = specSetup pOne ++ pOne.shading_commands.flatMap specShadingSteps ∧
        (pOne.run).filter Event.isDraw = specDraws pOne ∧
        (pOne.run).filter Event.isUpdate = specUpdates pOne ∧
        ((pOne.run).filter Event.isDraw).length = 1 * 1 * 1) :=
  ⟨rfl, by decide, C1_nested_execution pOne 1 1 1 rfl (by decide)⟩

/-! Device-state reasoning: prefix splitting and neutral events. -/

theorem splitAcrossAppend {α : Type} (P : α → Bool) (l1 : List α) :
    ∀ (l2 pre post : List α) (e : α), (∀ x ∈ l1, P x = false) → P e = true →
      l1 ++ l2 = pre ++ e :: post →
      ∃ mid, pre = l1 ++ mid ∧ l2 = mid ++ e :: post := by
  induction l1 with
  | nil =>
    intro l2 pre post e _ _ heq
    exact ⟨pre, (List.nil_append pre).symm, by simpa using heq⟩
  | cons a l1 ih =>
    intro l2 pre post e h1 he heq
    cases pre with
    | nil =>
      rw [List.nil_append, List.cons_append] at heq
      injection heq with hae _
      have hPa := h1 a (List.mem_cons_self a l1)
      rw [hae] at hPa
      rw [hPa] at he
      exact Bool.noConfusion he
    | cons b pre2 =>
      rw [List.cons_append, List.cons_append] at heq
      injection heq with hab htail
      obtain ⟨mid, hpre, hrest⟩ :=
        ih l2 pre2 post e (fun x hx => h1 x (List.mem_cons_of_mem a hx)) he htail
      refine ⟨mid, ?_, hrest⟩
      rw [List.cons_append, ← hpre, hab]

theorem applyTrace_append (s : DeviceState) (l1 l2 : List Event) :
    applyTrace s (l1 ++ l2) = applyTrace (applyTrace s l1) l2 :=
  List.foldl_append _ _ _ _

theorem applyEvent_neutral (s : DeviceState) (x : Event)
    (h : Event.isUpdate x = true ∨ Event.isDraw x = true) :
    applyEvent s x = s := by
  cases x <;>
    first
      | rfl
      | (rcases h with h | h <;> simp [Event.isUpdate, Event.isDraw] at h)

theorem applyTrace_of_neutral (m : List Event)
    (h : ∀ x ∈ m, Event.isUpdate x = true ∨ Event.isDraw x = true) :
    ∀ s : DeviceState, applyTrace s m = s := by
  induction m with
  | nil => intro s; rfl
  | cons a as ih =>
    intro s
    have hstep : applyTrace s (a :: as) = applyTrace (applyEvent s a) as := rfl
    rw [hstep, applyEvent_neutral s a (h a (List.mem_cons_self a as))]
    exact ih (fun x hx => h x (List.mem_cons_of_mem a hx)) s

theorem mem_tessBlock (prog : Program) (rs : Option F32) (inst : Nat)
    (l : List (Pipe Tess)) :
    ∀ x ∈ l.flatMap (fun t =>
        [Event.updateCall t.update_program prog.handle,
         Event.tessRender t.next.id rs inst]),
      Event.isUpdate x = true ∨ Event.isDraw x = true := by
  intro x hx
  rw [List.mem_flatMap] at hx
  obtain ⟨t, _, hx⟩ := hx
  simp at hx
  rcases hx with h | h <;> subst h
  · exact Or.inl rfl
  · exact Or.inr rfl

theorem header_no_draw (prog : Program) (piped : Pipe RenderCommand) :
    ∀ x ∈ Event.updateCall piped.update_program prog.handle ::
        (set_blending piped.next.blending ++
          set_depth_test piped.next.depth_test),
      Event.isDraw x = false := by
  intro x hx
  rcases List.mem_cons.mp hx with h | h
  · subst h; rfl
  · rcases List.mem_append.mp h with h2 | h2
    · cases hb : piped.next.blending with
      | none =>
        rw [hb] at h2; simp [set_blending] at h2; subst h2; rfl
      | some esd =>
        obtain ⟨e1, sf, df⟩ := esd
        rw [hb] at h2
        simp [set_blending] at h2
        rcases h2 with h3 | h3 | h3 <;> subst h3 <;> rfl
    · cases ht : piped.next.depth_test <;> rw [ht] at h2 <;>
        simp [set_depth_test] at h2 <;> subst h2 <;> rfl

theorem applyTrace_header (s : DeviceState) (prog : Program)
    (piped : Pipe RenderCommand) :
    blendConfigMatches piped.next.blending
        (applyTrace s
          (Event.updateCall piped.update_program prog.handle ::
            (set_blending piped.next.blending ++
              set_depth_test piped.next.depth_test))) ∧
      (applyTrace s
          (Event.updateCall piped.update_program prog.handle ::
            (set_blending piped.next.blending ++
              set_depth_test piped.next.depth_test))).depth_test =
        piped.next.depth_test := by
  cases hb : piped.next.blending with
  | none =>
    cases ht : piped.next.depth_test <;>
      simp [applyTrace, applyEvent, set_blending, set_depth_test,
        blendConfigMatches, gl.BLEND, gl.DEPTH_TEST]
  | some esd =>
    obtain ⟨e1, sf, df⟩ := esd
    cases ht : piped.next.depth_test <;>
      simp [applyTrace, applyEvent, set_blending, set_depth_test,
        blendConfigMatches, gl.BLEND, gl.DEPTH_TEST]

/-- C4: inside the trace of a render command, whatever the device state was
at entry, at the moment of every one of its draw calls the blending state
matches the command's blending triple (enabled with the translated equation
and factors when some, disabled when none) and the depth-test state equals
the command's depth_test flag — so all its drawables render under the same
configuration. -/
theorem C4_state_applied_before_draws (prog : Program)
    (piped : Pipe RenderCommand) (s : DeviceState) (pre post : List Event)
    (e : Event) (heq : run_render_command prog piped = pre ++ e :: post)
    (he : Event.isDraw e = true) :
    blendConfigMatches piped.next.blending (applyTrace s pre) ∧
      (applyTrace s pre).depth_test = piped.next.depth_test := by
  have hform : run_render_command prog piped =
      (Event.updateCall piped.update_program prog.handle ::
        (set_blending piped.next.blending ++
          set_depth_test piped.next.depth_test)) ++
        piped.next.tessellations.flatMap (fun t =>
          [Event.updateCall t.update_program prog.handle,
           Event.tessRender t.next.id piped.next.rasterization_size
             piped.next.instances]) := by
    simp [run_render_command, List.cons_append, List.append_assoc]
  rw [hform] at heq
  obtain ⟨mid, hpre, hrest⟩ :=
    splitAcrossAppend Event.isDraw _ _ pre post e (header_no_draw prog piped)
      he heq
  have hmid : ∀ x ∈ mid, Event.isUpdate x = true ∨ Event.isDraw x = true := by
    intro x hx
    refine mem_tessBlock prog piped.next.rasterization_size
      piped.next.instances piped.next.tessellations x ?_
    rw [hrest]
    exact List.mem_append_left _ hx
  rw [hpre, applyTrace_append, applyTrace_of_neutral mid hmid]
  exact applyTrace_header s prog piped

/-- C4 witness: on the concrete render command with additive blending and
depth test on, starting from the all-off device state, the state at its
draw call has blending enabled with FUNC_ADD/ONE/ZERO and depth test on. -/
theorem C4_state_applied_before_draws_witness :
    run_render_command progEx pipedRCEx =
        preC4 ++ Event.tessRender 42 none 1 :: [] ∧
      Event.isDraw (Event.tessRender 42 none 1) = true ∧
      (blendConfigMatches pipedRCEx.next.blending (applyTrace devEx preC4) ∧
        (applyTrace devEx preC4).depth_test = pipedRCEx.next.depth_test) :=
  ⟨by decide, rfl,
    C4_state_applied_before_draws progEx pipedRCEx devEx preC4 []
      (Event.tessRender 42 none 1) (by decide) rfl⟩

/-! Which program every traced callback invocation receives. -/

theorem rrc_update_arg_no_bind (prog : Program) (piped : Pipe RenderCommand) :
    ∀ x ∈ run_render_command prog piped,
      updateArgOK prog.handle x = true ∧ Event.isUseProgram x = false := by
  intro x hx
  simp only [run_render_command] at hx
  rcases List.mem_cons.mp hx with h | h
  · subst h
    exact ⟨by simp [updateArgOK], rfl⟩
  · rcases List.mem_append.mp h with h2 | h2
    · rcases List.mem_append.mp h2 with h3 | h3
      · cases hb : piped.next.blending with
        | none =>
          rw [hb] at h3; simp [set_blending] at h3; subst h3
          exact ⟨rfl, rfl⟩
        | some esd =>
          obtain ⟨e1, sf, df⟩ := esd
          rw [hb] at h3
          simp [set_blending] at h3
          rcases h3 with h4 | h4 | h4 <;> subst h4 <;> exact ⟨rfl, rfl⟩
      · cases ht : piped.next.depth_test <;> rw [ht] at h3 <;>
          simp [set_depth_test] at h3 <;> subst h3 <;> exact ⟨rfl, rfl⟩
    · rw [List.mem_flatMap] at h2
      obtain ⟨t, _, h3⟩ := h2
      simp at h3
      rcases h3 with h4 | h4 <;> subst h4
      · exact ⟨by simp [updateArgOK], rfl⟩
      · exact ⟨rfl, rfl⟩

theorem applyEvent_keeps_current (s : DeviceState) (x : Event)
    (h : Event.isUseProgram x = false) :
    (applyEvent s x).current_program = s.current_program := by
  cases x with
  | useProgram h2 => simp [Event.isUseProgram] at h
  | enable cap =>
    simp only [applyEvent]
    split_ifs <;> rfl
  | disable cap =>
    simp only [applyEvent]
    split_ifs <;> rfl
  | bindFramebuffer t h2 => rfl
  | viewport a b c d => rfl
  | clearColor r g b a => rfl
  | clear m => rfl
  | activeTexture u => rfl
  | bindTexture t h2 => rfl
  | bindBufferBase t i h2 => rfl
  | updateCall l p2 => rfl
  | blendEquation m => rfl
  | blendFunc a b => rfl
  | tessRender t s2 i => rfl

theorem applyTrace_keeps_current (m : List Event)
    (h : ∀ x ∈ m, Event.isUseProgram x = false) :
    ∀ s : DeviceState, (applyTrace s m).current_program = s.current_program := by
  induction m with
  | nil => intro s; rfl
  | cons a as ih =>
    intro s
    have hstep : applyTrace s (a :: as) = applyTrace (applyEvent s a) as := rfl
    rw [hstep, ih (fun x hx => h x (List.mem_cons_of_mem a hx)),
      applyEvent_keeps_current s a (h a (List.mem_cons_self a as))]

/-- C10: inside the trace of one shading command, every update-callback
invocation — shading level, render-command level and drawable level —
receives exactly that ShadingCommand's program handle, and at the moment of
every such invocation the currently bound program is that same program
(whatever program was bound before the shading command started). -/
theorem C10_updates_receive_current_program (piped : Pipe ShadingCommand)
    (s : DeviceState) (pre post : List Event) (lab h : Nat)
    (heq : run_shading_command piped = pre ++ Event.updateCall lab h :: post) :
    h = piped.next.program.handle ∧
      (applyTrace s pre).current_program = some piped.next.program.handle := by
  cases pre with
  | nil => simp [run_shading_command] at heq
  | cons b pre2 =>
    rw [run_shading_command, List.cons_append] at heq
    injection heq with h1 h2
    have hmem : Event.updateCall lab h ∈
        Event.updateCall piped.update_program piped.next.program.handle ::
          piped.next.render_commands.flatMap
            (run_render_command piped.next.program) := by
      rw [h2]
      exact List.mem_append_right _ (List.mem_cons_self _ _)
    have hh : h = piped.next.program.handle := by
      rcases List.mem_cons.mp hmem with hc | hc
      · cases hc; rfl
      · rw [List.mem_flatMap] at hc
        obtain ⟨rc, _, hc⟩ := hc
        have h3 := (rrc_update_arg_no_bind piped.next.program rc _ hc).1
        simpa [updateArgOK] using h3
    refine ⟨hh, ?_⟩
    have hpre2 : ∀ x ∈ pre2, Event.isUseProgram x = false := by
      intro x hx
      have hx2 : x ∈
          Event.updateCall piped.update_program piped.next.program.handle ::
            piped.next.render_commands.flatMap
              (run_render_command piped.next.program) := by
        rw [h2]
        exact List.mem_append_left _ hx
      rcases List.mem_cons.mp hx2 with hc | hc
      · subst hc; rfl
      · rw [List.mem_flatMap] at hc
        obtain ⟨rc, _, hc⟩ := hc
        exact (rrc_update_arg_no_bind piped.next.program rc x hc).2
    rw [← h1]
    have hstep : applyTrace s
        (Event.useProgram piped.next.program.handle :: pre2) =
        applyTrace
          (applyEvent s (Event.useProgram piped.next.program.handle)) pre2 := rfl
    rw [hstep, applyTrace_keeps_current pre2 hpre2]
    rfl

/-- C10 witness: on the concrete shading command, its drawable-level update
callback receives program handle 7 and the program current at that moment
is 7, starting from a device state with no program bound. -/
theorem C10_updates_receive_current_program_witness :
    run_shading_command pipedSCEx =
        preC10 ++ Event.updateCall 9 7 :: [Event.tessRender 42 none 1] ∧
      (7 = pipedSCEx.next.program.handle ∧
        (applyTrace devEx preC10).current_program =
          some pipedSCEx.next.program.handle) :=
  ⟨by decide,
    C10_updates_receive_current_program pipedSCEx devEx preC10
      [Event.tessRender 42 none 1] 9 7 (by decide)⟩

end LuminanceGL
